import Mathlib

/-!
Verification of the enemy-AI / grid-pathfinding core of the game
`triggered` (file `triggered.py`), shallowly embedded in Lean 4.

Conventions of the embedding:
* Python world coordinates are floats whose values in the pathfinding and
  agent code are exact (integers and halves, sums and products thereof);
  they are embedded as rationals (`ℚ`).
* Python dicts (`came_from`, `cost_so_far`) are embedded as association
  lists with first-match lookup and in-place update.
* The `while` loops of `a_star_search` and `reconstruct_path` are embedded
  with an explicit fuel parameter; a run that would raise in Python
  (`KeyError`, `StopIteration`, `IndexError`) or that exhausts its fuel
  returns `none`.
* External irrational functions (`math.hypot`, `math.sqrt`, `math.atan2`,
  `math.cos`, `math.sin`) are abstracted as a record `Ext` of unintepreted
  rational functions; none of the verified properties depends on their
  values, only (for `normalize`) on `hypot 0 0 = 0`.
* The pymunk raycast used for line of sight is abstracted as a boolean
  oracle `ray : Point → Point → Bool` (`true` = the segment query hit
  something).
-/

namespace Triggered

/-- World point: pair of rational coordinates (embeds exact Python floats). -/
abbrev Point : Type := ℚ × ℚ

/-- Python `distance_sqr(p1, p2)` from `triggered.py`. -/
def distance_sqr (p1 p2 : Point) : ℚ :=
  (p2.1 - p1.1) ^ 2 + (p2.2 - p1.2) ^ 2

/-- Python `heuristic(a, b)`: Manhattan distance on raw world coordinates. -/
def heuristic (a b : Point) : ℚ :=
  |a.1 - b.1| + |a.2 - b.2|

/-- First-match lookup in an association list (Python `d[k]` / `k in d`). -/
def dictGet {α β : Type} [DecidableEq α] : List (α × β) → α → Option β
  | [], _ => none
  | (k', v') :: rest, k => if k' = k then some v' else dictGet rest k

/-- In-place update of an association list (Python `d[k] = v`). -/
def dictSet {α β : Type} [DecidableEq α] : List (α × β) → α → β → List (α × β)
  | [], k, v => [(k, v)]
  | (k', v') :: rest, k, v =>
    if k' = k then (k, v) :: rest else (k', v') :: dictSet rest k v

/-- Python class `PathFinder(map_data, node_size)`: the grid tile data
(rows of characters, `'#'` = wall) together with the square cell size. -/
structure PathFinder where
  data : List (List Char)
  node_size : ℚ

/-- Python `PathFinder.walkable()`: the cell-centre world coordinates of
every non-`'#'` cell, row-major. -/
def PathFinder.walkable (pf : PathFinder) : List Point :=
  (pf.data.enum.map (fun yrow =>
    (yrow.2.enum.filterMap (fun xd =>
      if xd.2 ≠ '#' then
        some (pf.node_size / 2 + xd.1 * pf.node_size,
              pf.node_size / 2 + yrow.1 * pf.node_size)
      else none)))).flatten

/-- Python `PathFinder.neighbours(p)`: the four axis-aligned points one
cell away from `p` that are walkable, in N, S, E, W order. -/
def PathFinder.neighbours (pf : PathFinder) (p : Point) : List Point :=
  ([(0, 1), (0, -1), (1, 0), (-1, 0)] : List Point).map
    (fun d => (p.1 + d.1 * pf.node_size, p.2 + d.2 * pf.node_size))
    |>.filter (fun n => n ∈ pf.walkable)

/-- Python `PathFinder.cost(*ignored)`: uniform edge cost 1. -/
def PathFinder.cost (_pf : PathFinder) : ℚ := 1

/-- Python `PathFinder.closest_point(p)`: walkable point with minimal
squared distance to `p`, first minimum winning (`min` is stable);
`none` embeds the `ValueError` of `min` on an empty walkable set. -/
def PathFinder.closest_point (pf : PathFinder) (p : Point) : Option Point :=
  match pf.walkable with
  | [] => none
  | w :: ws =>
    some (ws.foldl (fun best q =>
      if distance_sqr p q < distance_sqr p best then q else best) w)

/-- One frontier entry of the Python `PriorityQueue`: `(priority, item)`. -/
abbrev PQEntry : Type := ℚ × Point

/-- Strict lexicographic order on `(priority, x, y)`: exactly the order in
which `heapq` compares the `(priority, item)` tuples it stores. -/
def pqLt (a b : PQEntry) : Bool :=
  decide (a.1 < b.1) ||
    (decide (a.1 = b.1) && (decide (a.2.1 < b.2.1) ||
      (decide (a.2.1 = b.2.1) && decide (a.2.2 < b.2.2))))

/-- Minimum entry of a non-empty frontier under `pqLt` (what
`heapq.heappop` returns; among equal tuples the choice is immaterial
because equal tuples are identical). -/
def pqMinimum (e : PQEntry) (rest : List PQEntry) : PQEntry :=
  rest.foldl (fun m x => if pqLt x m then x else m) e

/-- Remove the first occurrence of an entry from the frontier. -/
def pqRemove : List PQEntry → PQEntry → List PQEntry
  | [], _ => []
  | x :: xs, e => if x = e then xs else x :: pqRemove xs e

/-- The `came_from` dict: maps a point to its predecessor
(`none` for the start, mirroring Python's `None`). -/
abbrev CameFrom : Type := List (Point × Option Point)

/-- The `cost_so_far` dict. -/
abbrev CostSoFar : Type := List (Point × ℚ)

/-- Inner `for next in graph.neighbours(current)` loop of
`a_star_search`: relax each neighbour in turn.  `none` embeds the
`KeyError` that `cost_so_far[current]` would raise on a missing key. -/
def relaxNeighbours (pf : PathFinder) (goal current : Point) :
    List Point → List PQEntry → CameFrom → CostSoFar →
    Option (List PQEntry × CameFrom × CostSoFar)
  | [], frontier, cf, cs => some (frontier, cf, cs)
  | n :: ns, frontier, cf, cs =>
    match dictGet cs current with
    | none => none
    | some cc =>
      let new_cost := cc + pf.cost
      let upd : Bool :=
        match dictGet cs n with
        | none => true
        | some old => decide (new_cost < old)
      if upd then
        relaxNeighbours pf goal current ns
          (frontier ++ [(new_cost + heuristic goal n, n)])
          (dictSet cf n (some current))
          (dictSet cs n new_cost)
      else
        relaxNeighbours pf goal current ns frontier cf cs

/-- The `while not frontier.empty()` loop of `a_star_search`, with fuel.
Returns the final `(came_from, cost_so_far)` pair, or `none` on fuel
exhaustion or on a `KeyError` inside the body. -/
def aStarLoop (pf : PathFinder) (goal : Point) :
    ℕ → List PQEntry → CameFrom → CostSoFar → Option (CameFrom × CostSoFar)
  | 0, _, _, _ => none
  | _ + 1, [], cf, cs => some (cf, cs)
  | fuel + 1, e :: es, cf, cs =>
    let m := pqMinimum e es
    let current := m.2
    let frontier' := pqRemove (e :: es) m
    if current = goal then some (cf, cs)
    else
      match relaxNeighbours pf goal current (pf.neighbours current)
          frontier' cf cs with
      | none => none
      | some (frontier'', cf', cs') => aStarLoop pf goal fuel frontier'' cf' cs'

/-- Python `a_star_search(graph, start, goal)`. -/
def a_star_search (pf : PathFinder) (start goal : Point) (fuel : ℕ) :
    Option (CameFrom × CostSoFar) :=
  aStarLoop pf goal fuel [(0, start)] [(start, none)] [(start, 0)]

/-- The `while current != start` loop of `reconstruct_path`, with fuel.
`acc` is the reversed Python `path` list (consing here mirrors appending
there followed by the final `path.reverse()`); on exit Python appends
`start` once more, hence the `start :: acc`.  A missing `came_from` entry
(Python `KeyError`), a `None` predecessor for a non-start point (Python
would next look up `came_from[None]` and raise), or fuel exhaustion give
`none`. -/
def reconWalk (cf : CameFrom) (start : Point) :
    ℕ → Point → List Point → Option (List Point)
  | 0, _, _ => none
  | fuel + 1, current, acc =>
    if current = start then some (start :: acc)
    else
      match dictGet cf current with
      | none => none
      | some none => none
      | some (some c) => reconWalk cf start fuel c (c :: acc)

/-- Python `reconstruct_path(came_from, start, goal)`. -/
def reconstruct_path (cf : CameFrom) (start goal : Point) (fuel : ℕ) :
    Option (List Point) :=
  reconWalk cf start fuel goal [goal]

/-- Python `PathFinder.calculate_path(p1, p2)`. -/
def PathFinder.calculate_path (pf : PathFinder) (p1 p2 : Point) (fuel : ℕ) :
    Option (List Point) :=
  match a_star_search pf p1 p2 fuel with
  | none => none
  | some (cf, _cost) => reconstruct_path cf p1 p2 fuel

/-- The `for i in range(len(circular_points)-2)` loop of
`calc_patrol_path`: one `calculate_path(f, s)[1:]` segment per consecutive
pair, stopping while two elements remain (which is why the appended copy
of the first waypoint is never reached). -/
def patrolSegments (pf : PathFinder) (fuel : ℕ) : List Point → Option (List Point)
  | a :: b :: c :: rest =>
    match pf.calculate_path a b fuel with
    | none => none
    | some seg =>
      match patrolSegments pf fuel (b :: c :: rest) with
      | none => none
      | some r => some (seg.tail ++ r)
  | _ => some []

/-- Python `PathFinder.calc_patrol_path(points)`; `none` embeds the
`IndexError` of `points[0]` on an empty list. -/
def PathFinder.calc_patrol_path (pf : PathFinder) (points : List Point)
    (fuel : ℕ) : Option (List Point) :=
  match points with
  | [] => none
  | p0 :: _ => patrolSegments pf fuel (points ++ [p0])

/-- The irrational external math functions used by the agents, left
uninterpreted: `hyp x y` embeds `math.hypot(x, y)`, `sqrt` embeds
`math.sqrt`, `atan2d y x` embeds `math.degrees(math.atan2(y, x))`, and
`cosd`, `sind` embed `math.cos(math.radians(·))`,
`math.sin(math.radians(·))`. -/
structure Ext where
  hyp : ℚ → ℚ → ℚ
  sqrt : ℚ → ℚ
  atan2d : ℚ → ℚ → ℚ
  cosd : ℚ → ℚ
  sind : ℚ → ℚ

/-- A concrete interpretation of `Ext` (every function constantly `0`);
used to instantiate closed statements.  It satisfies `hyp 0 0 = 0`,
which is all any verified property asks of `Ext`. -/
def zeroExt : Ext := ⟨fun _ _ => 0, fun _ => 0, fun _ _ => 0, fun _ => 0, fun _ => 0⟩

/-- Python `normalize(p)`: divide by `math.hypot(*p)` unless the
magnitude is falsy (zero), in which case `p` is returned unchanged. -/
def normalize (ext : Ext) (p : Point) : Point :=
  let mag := ext.hyp p.1 p.2
  if mag ≠ 0 then (p.1 / mag, p.2 / mag) else p

/-- Python `angle(p)`: `degrees(atan2(ny, nx))` of the normalized vector. -/
def angleOf (ext : Ext) (p : Point) : ℚ :=
  ext.atan2d (normalize ext p).2 (normalize ext p).1

/-- Python class `EnemyState(Enum)`. -/
inductive EnemyState where
  | IDLE | PATROL | CHASE | ATTACK
deriving DecidableEq, Repr

/-- Python class `Bullet` (the fields the core reads/writes; sprites and
physics handles are external presentation state and are not modelled). -/
structure Bullet where
  pos : Point
  dir : Point
  speed : ℚ
  destroyed : Bool
deriving DecidableEq, Repr

/-- Python `Bullet.update(dt)`. -/
def Bullet.update (dt : ℚ) (b : Bullet) : Bullet :=
  { b with pos := (b.pos.1 + b.dir.1 * dt * b.speed,
                   b.pos.2 + b.dir.2 * dt * b.speed) }

/-- Python class `Enemy`: the simulation-relevant fields.  The cyclic
waypoint iterator `it.cycle(waypoints)` is embedded as the underlying
list plus the index `wp_idx` of the next element to yield; the
return-path iterator is the list of its remaining elements
(`none` = Python `None`); `return_target` starts as Python `None`,
hence the `Option`. -/
structure Enemy where
  pos : Point
  size : Point
  speed : ℚ
  angle : ℚ
  health : ℤ
  damage : ℤ
  dead : Bool
  bullets : List Bullet
  muzzle_mag : ℚ
  muzzle_angle : ℚ
  state : EnemyState
  waypoints : List Point
  wp_idx : ℕ
  patrol_target : Point
  return_path : Option (List Point)
  return_target : Option Point
  epsilon : ℚ
  chase_radius : ℚ
  attack_radius : ℚ
  attack_frequency : ℕ
  current_attack : ℕ
deriving DecidableEq, Repr

/-- The value `next(self.waypoints)` of the cyclic waypoint iterator. -/
def Enemy.nextWaypoint (e : Enemy) : Point :=
  e.waypoints.getD (e.wp_idx % e.waypoints.length) (0, 0)

/-- Python `Enemy.__init__(position, size, image, waypoints, ...)`:
the constructor requires a non-empty waypoint list (it immediately draws
one element from the cycle), so the head is a separate argument. -/
def mkEnemy (ext : Ext) (position size : Point) (w0 : Point)
    (wrest : List Point) : Enemy :=
  let muzzle_offset : Point := (size.1 / 2 + 6, -size.2 * (21 / 100))
  { pos := position
    size := size
    speed := 100
    angle := 0
    health := 100
    damage := 10
    dead := false
    bullets := []
    muzzle_mag := ext.sqrt (distance_sqr (0, 0) muzzle_offset)
    muzzle_angle := angleOf ext muzzle_offset
    state := .IDLE
    waypoints := w0 :: wrest
    wp_idx := 1
    patrol_target := w0
    return_path := none
    return_target := none
    epsilon := 10
    chase_radius := 300
    attack_radius := 150
    attack_frequency := 10
    current_attack := 0 }

/-- Python `Enemy.look_at(target)`:
`angle = degrees(-atan2(ty - py, tx - px))`. -/
def Enemy.look_at (ext : Ext) (target : Point) (e : Enemy) : Enemy :=
  { e with angle := -(ext.atan2d (target.2 - e.pos.2) (target.1 - e.pos.1)) }

/-- Python `Enemy.move_to_target(target, dt)`: step `speed * dt` along the
normalized direction, a no-op when the squared distance is falsy (zero). -/
def Enemy.move_to_target (ext : Ext) (target : Point) (dt : ℚ) (e : Enemy) :
    Enemy :=
  let diff : Point := (target.1 - e.pos.1, target.2 - e.pos.2)
  if distance_sqr (0, 0) diff ≠ 0 then
    let d := normalize ext diff
    { e with pos := (e.pos.1 + d.1 * e.speed * dt, e.pos.2 + d.2 * e.speed * dt) }
  else e

/-- Python `Enemy.attack(target)`: bump the cadence counter, and when it
reaches `attack_frequency`, spawn one bullet from the rotated muzzle
offset toward the target and reset the counter to zero. -/
def Enemy.attack (ext : Ext) (target : Point) (e : Enemy) : Enemy :=
  let ca := e.current_attack + 1
  if ca = e.attack_frequency then
    let diff : Point := (target.1 - e.pos.1, target.2 - e.pos.2)
    let dir := normalize ext diff
    let ang := e.muzzle_angle - e.angle
    let bpos : Point := (e.pos.1 + ext.cosd ang * e.muzzle_mag,
                         e.pos.2 + ext.sind ang * e.muzzle_mag)
    { e with bullets := e.bullets ++ [⟨bpos, dir, 500, false⟩],
             current_attack := 0 }
  else { e with current_attack := ca }

/-- Python `Enemy.chase(target, dt)`: orient, move only while the squared
distance exceeds `attack_radius**2`, then run `attack` unconditionally. -/
def Enemy.chase (ext : Ext) (target : Point) (dt : ℚ) (e : Enemy) : Enemy :=
  let e1 := e.look_at ext target
  let e2 := if distance_sqr e1.pos target > e1.attack_radius ^ 2 then
              e1.move_to_target ext target dt
            else e1
  e2.attack ext target

/-- Python `Enemy.patrol(dt)`: advance the cyclic waypoint target when the
squared distance to it is below `epsilon`, then orient and move. -/
def Enemy.patrol (ext : Ext) (dt : ℚ) (e : Enemy) : Enemy :=
  let e1 := if distance_sqr e.pos e.patrol_target < e.epsilon then
              { e with patrol_target := e.nextWaypoint, wp_idx := e.wp_idx + 1 }
            else e
  let e2 := e1.look_at ext e1.patrol_target
  e2.move_to_target ext e2.patrol_target dt

/-- Python `Enemy.return_to_patrol(dt, path)` combined with the caller's
`self.return_path = self.return_to_patrol(dt, self.return_path)`: when the
squared distance to `return_target` is below `epsilon`, pop the next path
point (`StopIteration` on an exhausted iterator drops the return path and
skips the orient/move of that tick), then orient and move toward the
current target.  A `return_target` of `None` would make `distance_sqr`
raise in Python, embedded as `none`. -/
def Enemy.return_to_patrol (ext : Ext) (dt : ℚ) (e : Enemy)
    (path : List Point) : Option Enemy :=
  match e.return_target with
  | none => none
  | some rt =>
    if distance_sqr e.pos rt < e.epsilon then
      match path with
      | [] => some { e with return_path := none }
      | t :: rest =>
        let e1 := { e with return_target := some t, return_path := some rest }
        let e2 := e1.look_at ext t
        some (e2.move_to_target ext t dt)
    else
      let e2 := e.look_at ext rt
      some ({ e2 with return_path := some path }.move_to_target ext rt dt)

/-- Python `Enemy.do_damage()`: subtract `self.damage` from `self.health`;
return early while the result is negative; on exactly zero, clear the
bullets and set the dead flag. -/
def Enemy.do_damage (e : Enemy) : Enemy :=
  let h := e.health - e.damage
  if h < 0 then { e with health := h }
  else if h = 0 then { e with health := h, bullets := [], dead := true }
  else { e with health := h }

/-- First phase of Python `Enemy.update(dt)`: the state re-evaluation
(chase-radius test, line-of-sight raycasts and, when a chase is abandoned
with the patrol target out of sight, the return-path computation).
`ray a b` abstracts `self.physics.raycast(a, b, 1, RAYCAST_MASK)` being
truthy (a hit); `player_dead`/`player_pos` are the fields of the watched
player the method reads; `pf`/`fuel` stand for `self.map.pathfinder`.
`none` embeds the exceptions Python can raise here (empty walkable set in
`closest_point`, failed path reconstruction, `next` on an empty path). -/
def Enemy.updateState (pf : PathFinder) (fuel : ℕ)
    (ray : Point → Point → Bool) (player_dead : Bool) (player_pos : Point)
    (e : Enemy) : Option Enemy :=
  if !player_dead then
    let player_distance := distance_sqr player_pos e.pos
    let previous_state := e.state
    if player_distance < e.chase_radius ^ 2 then
      if ray e.pos player_pos then some { e with state := .PATROL }
      else some { e with state := .CHASE }
    else if previous_state = .CHASE then
      if ray e.pos player_pos then
        let e1 := { e with state := EnemyState.PATROL }
        if ray e.pos e.patrol_target then
          match pf.closest_point e.pos with
          | none => none
          | some cpos =>
            match pf.closest_point e.patrol_target with
            | none => none
            | some ctgt =>
              match pf.calculate_path cpos ctgt fuel with
              | none => none
              | some [] => none
              | some (t :: rest) =>
                some { e1 with return_path := some rest,
                               return_target := some t }
        else some e1
      else some { e with state := .CHASE }
    else some e
  else some { e with state := .PATROL }

/-- Second phase of Python `Enemy.update(dt)`: the behaviour of the state
chosen by `updateState` (`IDLE` merely becomes `PATROL` for the next
tick — the `elif` chain runs no behaviour on that tick). -/
def Enemy.behave (ext : Ext) (player_pos : Point) (dt : ℚ) (e : Enemy) :
    Option Enemy :=
  if e.state = .IDLE then some { e with state := .PATROL }
  else if e.state = .PATROL then
    match e.return_path with
    | some path => e.return_to_patrol ext dt path
    | none => some (e.patrol ext dt)
  else if e.state = .CHASE then some (e.chase ext player_pos dt)
  else some e

/-- Python `Enemy.update(dt)`: state re-evaluation (`updateState`), then
the behaviour of the resulting state (`behave`), and finally dropping
destroyed bullets and advancing the live ones. -/
def Enemy.update (ext : Ext) (pf : PathFinder) (fuel : ℕ)
    (ray : Point → Point → Bool) (player_dead : Bool) (player_pos : Point)
    (dt : ℚ) (e : Enemy) : Option Enemy :=
  match e.updateState pf fuel ray player_dead player_pos with
  | none => none
  | some e' =>
    match e'.behave ext player_pos dt with
    | none => none
    | some e3 =>
      some { e3 with bullets :=
               (e3.bullets.filter (fun b => !b.destroyed)).map (Bullet.update dt) }

/-- Python class `Player`: the simulation-relevant fields. -/
structure Player where
  pos : Point
  size : Point
  angle : ℚ
  speed : ℚ
  dead : Bool
  max_health : ℤ
  health : ℤ
  damage : ℤ
  ammo : ℤ
  bullets : List Bullet
  muzzle_mag : ℚ
  muzzle_angle : ℚ
deriving DecidableEq, Repr

/-- Python `Player.__init__(position, size, image, _map, physics)`. -/
def mkPlayer (ext : Ext) (position size : Point) : Player :=
  let muzzle_offset : Point := (size.1 / 2 + 6, -size.2 * (21 / 100))
  { pos := position
    size := size
    angle := 0
    speed := 100
    dead := false
    max_health := 900
    health := 900
    damage := 5
    ammo := 350
    bullets := []
    muzzle_mag := ext.sqrt (distance_sqr (0, 0) muzzle_offset)
    muzzle_angle := angleOf ext muzzle_offset }

/-- Python `Player.do_damage()`: same shape as the enemy version (the
healthbar write on positive health is presentation state). -/
def Player.do_damage (p : Player) : Player :=
  let h := p.health - p.damage
  if h < 0 then { p with health := h }
  else if h = 0 then { p with health := h, bullets := [], dead := true }
  else { p with health := h }

/-- Python `Player.shoot(_dir)`: return unchanged when out of ammo;
otherwise decrement the ammo and append one bullet ejected from the
rotated muzzle offset (the ammobar write is presentation state). -/
def Player.shoot (ext : Ext) (dir : Point) (p : Player) : Player :=
  if p.ammo ≤ 0 then p
  else
    let ang := p.muzzle_angle - p.angle
    let bpos : Point := (p.pos.1 + ext.cosd ang * p.muzzle_mag,
                         p.pos.2 + ext.sind ang * p.muzzle_mag)
    { p with ammo := p.ammo - 1,
             bullets := p.bullets ++ [⟨bpos, dir, 500, false⟩] }

/-- Two points are 4-adjacent for cell size `ns`: they differ by exactly
one grid step to the north, south, east or west. -/
def adjacent (ns : ℚ) (a b : Point) : Prop :=
  (b.1 = a.1 ∧ b.2 = a.2 + ns) ∨ (b.1 = a.1 ∧ b.2 = a.2 - ns) ∨
  (b.1 = a.1 + ns ∧ b.2 = a.2) ∨ (b.1 = a.1 - ns ∧ b.2 = a.2)

instance (ns : ℚ) (a b : Point) : Decidable (adjacent ns a b) := by
  unfold adjacent
  infer_instance

/-- Boolean checker for a walk in the 4-connected walkable graph of a
grid: every consecutive pair of points is a `neighbours` step. -/
def isWalk (pf : PathFinder) : List Point → Bool
  | a :: b :: rest => decide (b ∈ pf.neighbours a) && isWalk pf (b :: rest)
  | _ => true

/-- Reachability in the 4-connected walkable graph of a grid: the
reflexive-transitive closure of the `neighbours` step relation. -/
inductive Reach (pf : PathFinder) (s : Point) : Point → Prop where
  | refl : Reach pf s s
  | step {b c : Point} : Reach pf s b → c ∈ pf.neighbours b → Reach pf s c

/-- Every key of a `came_from` map is reachable from the start. -/
def cfReach (pf : PathFinder) (s : Point) (cf : CameFrom) : Prop :=
  ∀ n v, dictGet cf n = some v → Reach pf s n

/-- Every item queued in a frontier is reachable from the start. -/
def frReach (pf : PathFinder) (s : Point) (frontier : List PQEntry) : Prop :=
  ∀ q ∈ frontier, Reach pf s (Prod.snd q)

/-- Every `came_from` entry with a predecessor records a `neighbours`
edge of the grid graph. -/
def cfEdges (pf : PathFinder) (cf : CameFrom) : Prop :=
  ∀ n c, dictGet cf n = some (some c) → n ∈ pf.neighbours c

/-- A 1x2 all-floor grid with the game's cell size 100. -/
def rowGrid : PathFinder := ⟨[['.', '.']], 100⟩

/-- A 1x3 all-floor grid with the game's cell size 100. -/
def rowGrid3 : PathFinder := ⟨[['.', '.', '.']], 100⟩

/-- A 1x3 grid whose middle cell is a wall: its two floor cells are
mutually unreachable. -/
def gapGrid : PathFinder := ⟨[['.', '#', '.']], 100⟩

/-- A 5x4 grid (row 0 is the bottom row) on which the A* of the source
returns a longer route than the shortest one: from `(50, 250)` (cell
`(0, 2)`) to `(450, 250)` (cell `(4, 2)`) the shortest walk has 6 steps
(over the top row), but the pixel-scaled Manhattan heuristic drives the
search along the 8-step bottom route. -/
def trapGrid : PathFinder :=
  ⟨[['#', '#', '.', '.', '.'],
    ['.', '.', '.', '#', '.'],
    ['.', '#', '#', '#', '.'],
    ['.', '.', '.', '.', '.']], 100⟩

/-- An enemy as constructed at level load: at the origin, with one
patrol waypoint, all the constructor defaults. -/
def sampleEnemy : Enemy := mkEnemy zeroExt (0, 0) (50, 50) (0, 0) []

/-- An enemy about to test the patrol epsilon threshold: 5 world units
away from its current patrol target. -/
def patrolEnemy : Enemy :=
  { sampleEnemy with patrol_target := (5, 0), waypoints := [(99, 0), (77, 0)], wp_idx := 0 }

/-- A player as constructed at level load. -/
def samplePlayer : Player := mkPlayer zeroExt (250, 300) (50, 50)

/-! Helper lemmas about the association-list dictionaries, the priority
queue and the grid graph. -/

theorem dictGet_dictSet {α β : Type} [DecidableEq α] (m : List (α × β))
    (k n : α) (v : β) :
    dictGet (dictSet m k v) n = if k = n then some v else dictGet m n := by
  induction m with
  | nil => simp [dictGet, dictSet]
  | cons e rest ih =>
    obtain ⟨k', v'⟩ := e
    by_cases hk : k' = k
    · subst hk
      by_cases hn : k' = n <;> simp [dictGet, dictSet, hn]
    · by_cases hn : k' = n
      · subst hn
        have hkn : ¬ k = k' := fun h => hk h.symm
        simp [dictGet, dictSet, hk, hkn]
      · simp [dictGet, dictSet, hk, hn, ih]

theorem mem_pqMinimum (e : PQEntry) (es : List PQEntry) :
    pqMinimum e es ∈ e :: es := by
  induction es generalizing e with
  | nil => simp [pqMinimum]
  | cons x xs ih =>
    have h := ih (if pqLt x e then x else e)
    simp only [pqMinimum, List.foldl_cons] at h ⊢
    rcases List.mem_cons.mp h with h | h
    · rw [h]
      split
      · simp
      · simp
    · simp [h]

theorem mem_pqRemove (l : List PQEntry) (x a : PQEntry) (h : a ∈ pqRemove l x) :
    a ∈ l := by
  induction l with
  | nil => simp [pqRemove] at h
  | cons y ys ih =>
    simp only [pqRemove] at h
    split at h
    · exact List.mem_cons_of_mem _ h
    · rcases List.mem_cons.mp h with h | h
      · simp [h]
      · exact List.mem_cons_of_mem _ (ih h)

theorem mem_neighbours {pf : PathFinder} {a b : Point} :
    b ∈ pf.neighbours a ↔ adjacent pf.node_size a b ∧ b ∈ pf.walkable := by
  simp only [PathFinder.neighbours, List.mem_filter, List.map_cons, List.map_nil,
    List.mem_cons, List.not_mem_nil, or_false, decide_eq_true_eq, adjacent,
    Prod.ext_iff]
  constructor
  · rintro ⟨h, hw⟩
    refine ⟨?_, hw⟩
    rcases h with h | h | h | h <;>
      simp only [h] <;> norm_num <;> simp [sub_eq_add_neg]
  · rintro ⟨h, hw⟩
    refine ⟨?_, hw⟩
    have hb : b = (b.1, b.2) := rfl
    rcases h with ⟨h1, h2⟩ | ⟨h1, h2⟩ | ⟨h1, h2⟩ | ⟨h1, h2⟩
    · left
      rw [hb, h1, h2]
      norm_num
    · right; left
      rw [hb, h1, h2]
      norm_num
      rw [sub_eq_add_neg]
    · right; right; left
      rw [hb, h1, h2]
      norm_num
    · right; right; right
      rw [hb, h1, h2]
      norm_num
      rw [sub_eq_add_neg]

theorem relaxNeighbours_reach {pf : PathFinder} {goal current s : Point} :
    ∀ (ns : List Point) (frontier : List PQEntry) (cf : CameFrom)
      (cs : CostSoFar) (out : List PQEntry × CameFrom × CostSoFar),
      relaxNeighbours pf goal current ns frontier cf cs = some out →
      (∀ n ∈ ns, n ∈ pf.neighbours current) → Reach pf s current →
      cfReach pf s cf → frReach pf s frontier →
      cfReach pf s out.2.1 ∧ frReach pf s out.1
  | [], frontier, cf, cs, out, h, _, _, hcf, hfr => by
    simp only [relaxNeighbours, Option.some.injEq] at h
    subst h
    exact ⟨hcf, hfr⟩
  | n :: ns, frontier, cf, cs, out, h, hns, hcur, hcf, hfr => by
    simp only [relaxNeighbours] at h
    rcases hg : dictGet cs current with _ | cc
    · simp only [hg] at h
      exact Option.noConfusion h
    · simp only [hg] at h
      have hn : n ∈ pf.neighbours current := hns n (List.mem_cons_self n ns)
      have hns' : ∀ m ∈ ns, m ∈ pf.neighbours current :=
        fun m hm => hns m (List.mem_cons_of_mem n hm)
      have hreach_n : Reach pf s n := Reach.step hcur hn
      split at h
      · refine relaxNeighbours_reach ns _ _ _ out h hns' hcur ?_ ?_
        · intro m v hm
          rw [dictGet_dictSet] at hm
          split at hm
          · rename_i heq
            exact heq ▸ hreach_n
          · exact hcf m v hm
        · intro q hq
          rcases List.mem_append.mp hq with hq | hq
          · exact hfr q hq
          · rcases List.mem_singleton.mp hq with rfl
            exact hreach_n
      · exact relaxNeighbours_reach ns _ _ _ out h hns' hcur hcf hfr

theorem aStarLoop_reach {pf : PathFinder} {goal s : Point} :
    ∀ (fuel : ℕ) (frontier : List PQEntry) (cf : CameFrom) (cs : CostSoFar)
      (res : CameFrom × CostSoFar),
      aStarLoop pf goal fuel frontier cf cs = some res →
      cfReach pf s cf → frReach pf s frontier → cfReach pf s res.1
  | 0, _, _, _, _, h, _, _ => by simp [aStarLoop] at h
  | fuel + 1, [], cf, cs, res, h, hcf, _ => by
    simp only [aStarLoop, Option.some.injEq] at h
    subst h
    exact hcf
  | fuel + 1, e :: es, cf, cs, res, h, hcf, hfr => by
    simp only [aStarLoop] at h
    have hcur : Reach pf s (pqMinimum e es).2 :=
      hfr (pqMinimum e es) (mem_pqMinimum e es)
    split at h
    · simp only [Option.some.injEq] at h
      subst h
      exact hcf
    · rcases hr : relaxNeighbours pf goal (pqMinimum e es).2
          (pf.neighbours (pqMinimum e es).2)
          (pqRemove (e :: es) (pqMinimum e es)) cf cs with _ | out
      · simp only [hr] at h
        exact Option.noConfusion h
      · simp only [hr] at h
        have hfr' : frReach pf s (pqRemove (e :: es) (pqMinimum e es)) :=
          fun q hq => hfr q (mem_pqRemove _ _ _ hq)
        obtain ⟨hcf', hfr''⟩ := relaxNeighbours_reach _ _ _ _ out hr
          (fun m hm => hm) hcur hcf hfr'
        exact aStarLoop_reach fuel out.1 out.2.1 out.2.2 res h hcf' hfr''

theorem relaxNeighbours_edges {pf : PathFinder} {goal current : Point} :
    ∀ (ns : List Point) (frontier : List PQEntry) (cf : CameFrom)
      (cs : CostSoFar) (out : List PQEntry × CameFrom × CostSoFar),
      relaxNeighbours pf goal current ns frontier cf cs = some out →
      (∀ n ∈ ns, n ∈ pf.neighbours current) → cfEdges pf cf →
      cfEdges pf out.2.1
  | [], frontier, cf, cs, out, h, _, hcf => by
    simp only [relaxNeighbours, Option.some.injEq] at h
    subst h
    exact hcf
  | n :: ns, frontier, cf, cs, out, h, hns, hcf => by
    simp only [relaxNeighbours] at h
    rcases hg : dictGet cs current with _ | cc
    · simp only [hg] at h
      exact Option.noConfusion h
    · simp only [hg] at h
      have hn : n ∈ pf.neighbours current := hns n (List.mem_cons_self n ns)
      have hns' : ∀ m ∈ ns, m ∈ pf.neighbours current :=
        fun m hm => hns m (List.mem_cons_of_mem n hm)
      split at h
      · refine relaxNeighbours_edges ns _ _ _ out h hns' ?_
        intro m c hm
        rw [dictGet_dictSet] at hm
        split at hm
        · rename_i heq
          rcases Option.some.injEq _ _ ▸ hm with hm'
          have : (some current : Option Point) = some c := by
            simpa using hm
          rcases Option.some.injEq _ _ ▸ this with rfl
          exact heq ▸ hn
        · exact hcf m c hm
      · exact relaxNeighbours_edges ns _ _ _ out h hns' hcf

theorem aStarLoop_edges {pf : PathFinder} {goal : Point} :
    ∀ (fuel : ℕ) (frontier : List PQEntry) (cf : CameFrom) (cs : CostSoFar)
      (res : CameFrom × CostSoFar),
      aStarLoop pf goal fuel frontier cf cs = some res →
      cfEdges pf cf → cfEdges pf res.1
  | 0, _, _, _, _, h, _ => by simp [aStarLoop] at h
  | fuel + 1, [], cf, cs, res, h, hcf => by
    simp only [aStarLoop, Option.some.injEq] at h
    subst h
    exact hcf
  | fuel + 1, e :: es, cf, cs, res, h, hcf => by
    simp only [aStarLoop] at h
    split at h
    · simp only [Option.some.injEq] at h
      subst h
      exact hcf
    · rcases hr : relaxNeighbours pf goal (pqMinimum e es).2
          (pf.neighbours (pqMinimum e es).2)
          (pqRemove (e :: es) (pqMinimum e es)) cf cs with _ | out
      · simp only [hr] at h
        exact Option.noConfusion h
      · simp only [hr] at h
        have hcf' := relaxNeighbours_edges _ _ _ _ out hr (fun m hm => hm) hcf
        exact aStarLoop_edges fuel out.1 out.2.1 out.2.2 res h hcf'

theorem reconWalk_sound {pf : PathFinder} {cf : CameFrom} {start : Point}
    (hcf : cfEdges pf cf) :
    ∀ (fuel : ℕ) (current : Point) (acc r : List Point),
      reconWalk cf start fuel current acc = some r →
      acc.head? = some current →
      List.Chain' (fun a b => b ∈ pf.neighbours a) acc →
      ∃ q, r = start :: q ∧ q.head? = some start ∧
        List.Chain' (fun a b => b ∈ pf.neighbours a) q ∧
        q.getLast? = acc.getLast?
  | 0, current, acc, r, h, _, _ => by simp [reconWalk] at h
  | fuel + 1, current, acc, r, h, hhead, hchain => by
    simp only [reconWalk] at h
    split at h
    · rename_i heq
      simp only [Option.some.injEq] at h
      subst h
      refine ⟨acc, rfl, ?_, hchain, rfl⟩
      rw [hhead, heq]
    · rcases hg : dictGet cf current with _ | oc
      · simp only [hg] at h
        exact Option.noConfusion h
      · rcases oc with _ | c
        · simp only [hg] at h
          exact Option.noConfusion h
        · simp only [hg] at h
          have hedge : current ∈ pf.neighbours c := hcf current c hg
          have hchain' : List.Chain' (fun a b => b ∈ pf.neighbours a) (c :: acc) := by
            rw [List.chain'_cons']
            refine ⟨fun y hy => ?_, hchain⟩
            rw [hhead, Option.mem_def, Option.some.injEq] at hy
            rw [← hy]
            exact hedge
          obtain ⟨q, hq1, hq2, hq3, hq4⟩ :=
            reconWalk_sound hcf fuel c (c :: acc) r h rfl hchain'
          refine ⟨q, hq1, hq2, hq3, ?_⟩
          rw [hq4]
          cases acc with
          | nil => exact Option.noConfusion hhead
          | cons a as => rw [List.getLast?_cons_cons]

/-! Field-preservation facts for the enemy behaviour methods. -/

@[simp] theorem look_at_pos (ext : Ext) (t : Point) (e : Enemy) :
    (e.look_at ext t).pos = e.pos := rfl

@[simp] theorem look_at_bullets (ext : Ext) (t : Point) (e : Enemy) :
    (e.look_at ext t).bullets = e.bullets := rfl

@[simp] theorem look_at_current_attack (ext : Ext) (t : Point) (e : Enemy) :
    (e.look_at ext t).current_attack = e.current_attack := rfl

@[simp] theorem look_at_attack_frequency (ext : Ext) (t : Point) (e : Enemy) :
    (e.look_at ext t).attack_frequency = e.attack_frequency := rfl

@[simp] theorem look_at_attack_radius (ext : Ext) (t : Point) (e : Enemy) :
    (e.look_at ext t).attack_radius = e.attack_radius := rfl

@[simp] theorem look_at_patrol_target (ext : Ext) (t : Point) (e : Enemy) :
    (e.look_at ext t).patrol_target = e.patrol_target := rfl

@[simp] theorem look_at_return_target (ext : Ext) (t : Point) (e : Enemy) :
    (e.look_at ext t).return_target = e.return_target := rfl

@[simp] theorem look_at_return_path (ext : Ext) (t : Point) (e : Enemy) :
    (e.look_at ext t).return_path = e.return_path := rfl

@[simp] theorem move_to_target_bullets (ext : Ext) (t : Point) (dt : ℚ) (e : Enemy) :
    (e.move_to_target ext t dt).bullets = e.bullets := by
  unfold Enemy.move_to_target
  dsimp only
  split <;> rfl

@[simp] theorem move_to_target_current_attack (ext : Ext) (t : Point) (dt : ℚ) (e : Enemy) :
    (e.move_to_target ext t dt).current_attack = e.current_attack := by
  unfold Enemy.move_to_target
  dsimp only
  split <;> rfl

@[simp] theorem move_to_target_attack_frequency (ext : Ext) (t : Point) (dt : ℚ) (e : Enemy) :
    (e.move_to_target ext t dt).attack_frequency = e.attack_frequency := by
  unfold Enemy.move_to_target
  dsimp only
  split <;> rfl

@[simp] theorem move_to_target_patrol_target (ext : Ext) (t : Point) (dt : ℚ) (e : Enemy) :
    (e.move_to_target ext t dt).patrol_target = e.patrol_target := by
  unfold Enemy.move_to_target
  dsimp only
  split <;> rfl

@[simp] theorem move_to_target_return_target (ext : Ext) (t : Point) (dt : ℚ) (e : Enemy) :
    (e.move_to_target ext t dt).return_target = e.return_target := by
  unfold Enemy.move_to_target
  dsimp only
  split <;> rfl

@[simp] theorem move_to_target_return_path (ext : Ext) (t : Point) (dt : ℚ) (e : Enemy) :
    (e.move_to_target ext t dt).return_path = e.return_path := by
  unfold Enemy.move_to_target
  dsimp only
  split <;> rfl

@[simp] theorem attack_pos (ext : Ext) (t : Point) (e : Enemy) :
    (e.attack ext t).pos = e.pos := by
  unfold Enemy.attack
  dsimp only
  split <;> rfl

@[simp] theorem move_to_target_angle (ext : Ext) (t : Point) (dt : ℚ) (e : Enemy) :
    (e.move_to_target ext t dt).angle = e.angle := by
  unfold Enemy.move_to_target
  dsimp only
  split <;> rfl

@[simp] theorem attack_angle (ext : Ext) (t : Point) (e : Enemy) :
    (e.attack ext t).angle = e.angle := by
  unfold Enemy.attack
  dsimp only
  split <;> rfl

theorem reach_mem_closed (pf : PathFinder) (S : List Point) (s : Point)
    (hs : s ∈ S) (hcl : ∀ b ∈ S, ∀ c ∈ pf.neighbours b, c ∈ S) :
    ∀ g, Reach pf s g → g ∈ S := by
  intro g h
  induction h with
  | refl => exact hs
  | step hb hc ih => exact hcl _ ih _ hc

/-- C4.  The claim says `calculate_path(p, p) = [p]`; the code in fact
returns `[p, p]` for every point `p`, every grid and every positive fuel:
`a_star_search` breaks immediately at the goal, and `reconstruct_path`
appends `start` once more after the loop (which already produced it),
duplicating the start point.  This theorem evaluates the code on the
claim's input shape and exhibits the duplication. -/
theorem calculate_path_self (pf : PathFinder) (p : Point) (fuel : ℕ) :
    pf.calculate_path p p (fuel + 1) = some [p, p] := by
  simp [PathFinder.calculate_path, a_star_search, aStarLoop, pqMinimum,
    reconstruct_path, reconWalk]

/-- C5.  For every start `p` and distinct unreachable goal `g`, the code
has no successful result: `a_star_search` never records a `came_from`
entry for `g` (every key it records is reachable from `p`), so the path
reconstruction's first lookup of the goal fails (Python `KeyError`,
embedded as `none`), for every fuel. -/
theorem calculate_path_unreachable_none (pf : PathFinder) (p g : Point)
    (hne : g ≠ p) (hun : ¬ Reach pf p g) (fuel : ℕ) :
    pf.calculate_path p g fuel = none := by
  unfold PathFinder.calculate_path
  rcases hs : a_star_search pf p g fuel with _ | res
  · rfl
  · obtain ⟨cf, cost⟩ := res
    have hcf : cfReach pf p cf := by
      unfold a_star_search at hs
      refine @aStarLoop_reach pf g p fuel [(0, p)] [(p, none)] [(p, 0)] (cf, cost) hs ?_ ?_
      · intro n v hn
        by_cases hp : p = n
        · exact hp ▸ Reach.refl
        · simp [dictGet, hp] at hn
      · intro q hq
        rcases List.mem_singleton.mp hq with rfl
        exact Reach.refl
    have hg : dictGet cf g = none := by
      rcases hv : dictGet cf g with _ | v
      · rfl
      · exact absurd (hcf g v hv) hun
    unfold reconstruct_path
    cases fuel with
    | zero => rfl
    | succ f => simp [reconWalk, hne, hg]

/-- Witness for C5: on the 1x3 grid whose middle cell is a wall, the right
cell `(250, 50)` is distinct from and unreachable from the left cell
`(50, 50)`, and `calculate_path` has no successful result. -/
theorem calculate_path_unreachable_none_witness :
    (((250 : ℚ), (50 : ℚ)) : Point) ≠ ((50 : ℚ), (50 : ℚ)) ∧
    gapGrid.calculate_path (50, 50) (250, 50) 50 = none := by
  have hnb : gapGrid.neighbours (50, 50) = [] := by
    norm_num [gapGrid, PathFinder.neighbours, PathFinder.walkable,
      List.enum, List.enumFrom, List.filter_cons, Prod.mk.injEq]
  have hne : (((250 : ℚ), (50 : ℚ)) : Point) ≠ ((50 : ℚ), (50 : ℚ)) := by
    simp only [ne_eq, Prod.mk.injEq, not_and]
    intro h
    norm_num at h
  refine ⟨hne, ?_⟩
  refine calculate_path_unreachable_none gapGrid (50, 50) (250, 50) hne ?_ 50
  intro h
  have hmem := reach_mem_closed gapGrid [((50 : ℚ), (50 : ℚ))] (50, 50)
    (by simp) ?_ _ h
  · simp only [List.mem_singleton, Prod.mk.injEq] at hmem
    exact absurd hmem.1 (by norm_num)
  · intro b hb c hc
    rcases List.mem_singleton.mp hb with rfl
    rw [hnb] at hc
    exact absurd hc (List.not_mem_nil c)

/-- C1 (amended).  Whenever `calculate_path(p, g)` returns a sequence, the
sequence is `p` followed by a walk from `p` to `g`: its first element is
duplicated (`p :: q` with `q` starting at `p` again), `q` ends at `g`, and
every consecutive pair of `q` is 4-adjacent (one grid step N, S, E or W)
and lands on a walkable cell.  The original claim's further demands fail
on the code (see the counterexample): the duplicated start makes the
first consecutive pair of the returned sequence non-adjacent, and the
pixel-scaled Manhattan heuristic (cost 1 per step against a heuristic in
pixels) is inadmissible, so the returned walk can be strictly longer than
a BFS shortest path. -/
theorem calculate_path_sound (pf : PathFinder) (p g : Point) (fuel : ℕ)
    (path : List Point) (h : pf.calculate_path p g fuel = some path) :
    ∃ q, path = p :: q ∧ q.head? = some p ∧ q.getLast? = some g ∧
      List.Chain' (fun a b => adjacent pf.node_size a b ∧ b ∈ pf.walkable) q := by
  unfold PathFinder.calculate_path at h
  rcases hs : a_star_search pf p g fuel with _ | res
  · rw [hs] at h
    exact Option.noConfusion h
  · obtain ⟨cf, cost⟩ := res
    rw [hs] at h
    have hedges : cfEdges pf cf := by
      unfold a_star_search at hs
      refine @aStarLoop_edges pf g fuel [(0, p)] [(p, none)] [(p, 0)] (cf, cost) hs ?_
      · intro n c hn
        by_cases hp : p = n
        · subst hp
          simp [dictGet] at hn
        · simp [dictGet, hp] at hn
    unfold reconstruct_path at h
    obtain ⟨q, hq1, hq2, hq3, hq4⟩ :=
      reconWalk_sound hedges fuel g [g] path h rfl (List.chain'_singleton g)
    simp only [List.getLast?_singleton] at hq4
    exact ⟨q, hq1, hq2, hq4, List.Chain'.imp (fun a b hab => mem_neighbours.mp hab) hq3⟩

/-- Counterexample to C1 as stated.  On `trapGrid`, from `(50, 250)` to
`(450, 250)` (both walkable and connected), the code returns a sequence
of 10 points, i.e. 9 steps: its first consecutive pair is the duplicated
start (not 4-adjacent), and a walk of 6 steps between the same endpoints
exists in the 4-connected walkable graph (checked by `isWalk`), so the
returned length also exceeds the BFS shortest-path length. -/
theorem calculate_path_claim_cex :
    trapGrid.calculate_path (50, 250) (450, 250) 60 =
      some [(50, 250), (50, 250), (50, 150), (150, 150), (250, 150),
            (250, 50), (350, 50), (450, 50), (450, 150), (450, 250)] ∧
    isWalk trapGrid [(50, 250), (50, 350), (150, 350), (250, 350),
      (350, 350), (450, 350), (450, 250)] = true ∧
    ¬ adjacent 100 (50, 250) (50, 250) ∧
    ¬ (([(50, 250), (50, 250), (50, 150), (150, 150), (250, 150), (250, 50),
         (350, 50), (450, 50), (450, 150), (450, 250)] : List Point).length - 1 ≤
        ([(50, 250), (50, 350), (150, 350), (250, 350), (350, 350),
          (450, 350), (450, 250)] : List Point).length - 1) := by
  refine ⟨?_, ?_, ?_, ?_⟩
  · set_option maxHeartbeats 4000000 in
    norm_num [trapGrid, PathFinder.calculate_path, a_star_search, aStarLoop,
      relaxNeighbours, pqMinimum, pqRemove, pqLt, reconstruct_path, reconWalk,
      dictGet, dictSet, PathFinder.neighbours, PathFinder.walkable,
      PathFinder.cost, heuristic, List.enum, List.enumFrom, List.filter_cons,
      Prod.mk.injEq]
  · norm_num [trapGrid, isWalk, PathFinder.neighbours, PathFinder.walkable,
      List.enum, List.enumFrom, List.filter_cons, Prod.mk.injEq, List.mem_cons]
    decide
  · intro h
    rcases h with ⟨_, h⟩ | ⟨_, h⟩ | ⟨h, _⟩ | ⟨h, _⟩ <;> norm_num at h
  · norm_num

/-- Witness for C1 (amended): the soundness theorem applied to the
concrete run of `calculate_path` on the 1x2 grid, whose returned
sequence is `[(50,50), (50,50), (150,50)]`. -/
theorem calculate_path_sound_witness :
    ∃ q, ([((50 : ℚ), (50 : ℚ)), (50, 50), (150, 50)] : List Point) =
        ((50 : ℚ), (50 : ℚ)) :: q ∧
      q.head? = some (50, 50) ∧ q.getLast? = some (150, 50) ∧
      List.Chain' (fun a b => adjacent rowGrid.node_size a b ∧
        b ∈ rowGrid.walkable) q :=
  calculate_path_sound rowGrid (50, 50) (150, 50) 20 _ (by
    norm_num [rowGrid, PathFinder.calculate_path, a_star_search, aStarLoop,
      relaxNeighbours, pqMinimum, pqRemove, pqLt, reconstruct_path, reconWalk,
      dictGet, dictSet, PathFinder.neighbours, PathFinder.walkable,
      PathFinder.cost, heuristic, List.enum, List.enumFrom, List.filter_cons,
      Prod.mk.injEq])

/-- C2.  The claim says `calc_patrol_path([A, B, C])` returns a closed
loop A to B to C back to A with no duplicated consecutive point at the
joins.  On a 1x3 grid with the three cell centres as waypoints the code
returns `[A, B, B, C]`: the point `B` is duplicated at the join of the
two concatenated segments (because each `calculate_path` result begins
with its start duplicated and only one copy is dropped by `[1:]`), and
the wraparound segment back to `A` is missing entirely (the loop
`for i in range(len(circular_points)-2)` stops one pair short of the
appended copy of the first waypoint), so the path does not end at `A`. -/
theorem calc_patrol_path_open_loop :
    rowGrid3.calc_patrol_path [(50, 50), (150, 50), (250, 50)] 40 =
      some [(50, 50), (150, 50), (150, 50), (250, 50)] ∧
    ([(50, 50), (150, 50), (150, 50), (250, 50)] : List Point).getLast? ≠
      some (50, 50) := by
  constructor
  · set_option maxHeartbeats 2000000 in
    norm_num [rowGrid3, PathFinder.calc_patrol_path, patrolSegments,
      PathFinder.calculate_path, a_star_search, aStarLoop, relaxNeighbours,
      pqMinimum, pqRemove, pqLt, reconstruct_path, reconWalk, dictGet, dictSet,
      PathFinder.neighbours, PathFinder.walkable, PathFinder.cost, heuristic,
      List.enum, List.enumFrom, List.filter_cons, Prod.mk.injEq]
  · simp only [List.getLast?_cons_cons, List.getLast?_singleton, ne_eq,
      Option.some.injEq, Prod.mk.injEq, not_and]
    intro h
    norm_num at h

theorem update_eq_of {ext : Ext} {pf : PathFinder} {fuel : ℕ}
    {ray : Point → Point → Bool} {pd : Bool} {pp : Point} {dt : ℚ}
    {e e' e3 : Enemy}
    (h1 : e.updateState pf fuel ray pd pp = some e')
    (h2 : e'.behave ext pp dt = some e3) :
    e.update ext pf fuel ray pd pp dt =
      some { e3 with bullets :=
        (e3.bullets.filter (fun b => !b.destroyed)).map (Bullet.update dt) } := by
  unfold Enemy.update
  rw [h1]
  dsimp only
  rw [h2]

theorem attack_spec (ext : Ext) (t : Point) (e : Enemy) :
    (e.current_attack + 1 = e.attack_frequency →
      (e.attack ext t).bullets.length = e.bullets.length + 1 ∧
      (e.attack ext t).current_attack = 0) ∧
    (e.current_attack + 1 ≠ e.attack_frequency →
      (e.attack ext t).bullets = e.bullets ∧
      (e.attack ext t).current_attack = e.current_attack + 1) := by
  unfold Enemy.attack
  dsimp only
  constructor
  · intro h
    rw [if_pos h]
    simp
  · intro h
    rw [if_neg h]
    exact ⟨rfl, rfl⟩

/-- Counterexample to C3 as stated.  With the enemy at the origin, the
player alive at `(500, 0)` and every raycast reporting no hit, one call
to `Enemy.update` leaves the state `PATROL`, not `CHASE`: the squared
distance 250000 fails the test `< chase_radius**2 = 90000`, the previous
state was `IDLE` (not `CHASE`), so only the `IDLE → PATROL` bootstrap
runs. -/
theorem update_far_player_cex :
    sampleEnemy.update zeroExt rowGrid 10 (fun _ _ => false) false (500, 0) 1 =
      some { sampleEnemy with state := EnemyState.PATROL } ∧
    ({ sampleEnemy with state := EnemyState.PATROL } : Enemy).state ≠
      EnemyState.CHASE := by
  constructor
  · have h1 : sampleEnemy.updateState rowGrid 10
        (fun _ _ => false) false (500, 0) = some sampleEnemy := by
      norm_num [Enemy.updateState, sampleEnemy, mkEnemy, distance_sqr]
      decide
    have h2 : sampleEnemy.behave zeroExt (500, 0) 1 =
        some { sampleEnemy with state := EnemyState.PATROL } := by
      norm_num [Enemy.behave, sampleEnemy, mkEnemy]
    exact update_eq_of h1 h2
  · simp

/-- C3 (amended).  Same setup as the claim — enemy constructed at
`(0, 0)`, living player at `(500, 0)`, no obstruction anywhere — but the
state after exactly one `Enemy.update` is `PATROL` (not `CHASE`): the
player is outside the chase radius (500 > 300), and since the previous
state was the freshly-constructed `IDLE` (not `CHASE`), the hysteresis
rule skips re-evaluation and the `IDLE → PATROL` bootstrap fires.  This
holds for every interpretation of the external math functions and every
timestep. -/
theorem update_far_player_patrol (ext : Ext) (dt : ℚ) :
    (mkEnemy ext (0, 0) (50, 50) (0, 0) []).update ext rowGrid 10
      (fun _ _ => false) false (500, 0) dt =
    some { mkEnemy ext (0, 0) (50, 50) (0, 0) [] with
           state := EnemyState.PATROL } := by
  have h1 : (mkEnemy ext (0, 0) (50, 50) (0, 0) []).updateState rowGrid 10
      (fun _ _ => false) false (500, 0) =
      some (mkEnemy ext (0, 0) (50, 50) (0, 0) []) := by
    norm_num [Enemy.updateState, mkEnemy, distance_sqr]
    decide
  have h2 : (mkEnemy ext (0, 0) (50, 50) (0, 0) []).behave ext (500, 0) dt =
      some { mkEnemy ext (0, 0) (50, 50) (0, 0) [] with
             state := EnemyState.PATROL } := by
    norm_num [Enemy.behave, mkEnemy]
  exact update_eq_of h1 h2

/-- C6.  The claim says a hit that takes health from 3 to -2 kills the
agent.  In the code (both `Player.do_damage` and `Enemy.do_damage`) the
guard `if self.health < 0: return` fires first and the dead flag is never
set: death only happens when health lands exactly on zero.  This theorem
evaluates both methods at the claim's input: health ends at -2 (≤ 0) and
`dead` stays `false`. -/
theorem do_damage_overshoot_no_death :
    (({ sampleEnemy with health := 3, damage := 5 } : Enemy).do_damage.dead = false ∧
     ({ sampleEnemy with health := 3, damage := 5 } : Enemy).do_damage.health = -2) ∧
    (({ samplePlayer with health := 3, damage := 5 } : Player).do_damage.dead = false ∧
     ({ samplePlayer with health := 3, damage := 5 } : Player).do_damage.health = -2) := by
  refine ⟨⟨?_, ?_⟩, ?_, ?_⟩ <;>
    norm_num [Enemy.do_damage, Player.do_damage, sampleEnemy, samplePlayer,
      mkEnemy, mkPlayer]

/-- Counterexample to C7 as stated.  An enemy in `Chase` with the cadence
counter at 9 (frequency 10) and the player 1000 world units away — far
beyond the attack radius 150 — still fires: `chase` calls `attack`
unconditionally, outside the `if` that gates movement. -/
theorem chase_fires_beyond_attack_radius_cex :
    distance_sqr sampleEnemy.pos (1000, 0) > sampleEnemy.attack_radius ^ 2 ∧
    (({ sampleEnemy with state := EnemyState.CHASE, current_attack := 9 } : Enemy).chase
        zeroExt (1000, 0) 1).bullets.length =
      ({ sampleEnemy with state := EnemyState.CHASE, current_attack := 9 } : Enemy).bullets.length
        + 1 := by
  constructor
  · norm_num [sampleEnemy, mkEnemy, distance_sqr]
  · norm_num [Enemy.chase, Enemy.attack, Enemy.look_at, Enemy.move_to_target,
      normalize, zeroExt, sampleEnemy, mkEnemy, distance_sqr]

/-- C7 (amended).  In `Chase` the enemy orients toward the player on
every chase tick: the tick leaves its angle at
`degrees(-atan2(ty - py, tx - px))` computed from its position at the
start of the tick (the `look_at` of the target; neither the movement nor
the attack touches the angle).  It stops approaching once the squared
distance is within `attack_radius**2` (its position is then unchanged by
the tick), but the attack cadence runs on every chase tick regardless of
range: a bullet is spawned exactly when the counter reaches
`attack_frequency` (every N-th chase tick), the counter then resets to
zero, and otherwise it just increments with no bullet.  The claim's
"never fires while farther than the attack radius" is false — see the
counterexample. -/
theorem chase_cadence (ext : Ext) (target : Point) (dt : ℚ) (e : Enemy) :
    (e.chase ext target dt).angle =
      -(ext.atan2d (target.2 - e.pos.2) (target.1 - e.pos.1)) ∧
    (distance_sqr e.pos target ≤ e.attack_radius ^ 2 →
      (e.chase ext target dt).pos = e.pos) ∧
    (e.current_attack + 1 = e.attack_frequency →
      (e.chase ext target dt).bullets.length = e.bullets.length + 1 ∧
      (e.chase ext target dt).current_attack = 0) ∧
    (e.current_attack + 1 ≠ e.attack_frequency →
      (e.chase ext target dt).bullets = e.bullets ∧
      (e.chase ext target dt).current_attack = e.current_attack + 1) := by
  have horient : (e.chase ext target dt).angle =
      -(ext.atan2d (target.2 - e.pos.2) (target.1 - e.pos.1)) := by
    unfold Enemy.chase
    dsimp only
    rw [attack_angle]
    split
    · rw [move_to_target_angle]
      rfl
    · rfl
  refine ⟨horient, ?_⟩
  have key : ∀ e2 : Enemy, e2.current_attack = e.current_attack →
      e2.bullets = e.bullets → e2.attack_frequency = e.attack_frequency →
      (e.current_attack + 1 = e.attack_frequency →
        (e2.attack ext target).bullets.length = e.bullets.length + 1 ∧
        (e2.attack ext target).current_attack = 0) ∧
      (e.current_attack + 1 ≠ e.attack_frequency →
        (e2.attack ext target).bullets = e.bullets ∧
        (e2.attack ext target).current_attack = e.current_attack + 1) := by
    intro e2 hca hb hf
    have h := attack_spec ext target e2
    rw [hca, hb, hf] at h
    exact h
  unfold Enemy.chase
  dsimp only
  by_cases hgt : distance_sqr (e.look_at ext target).pos target >
      (e.look_at ext target).attack_radius ^ 2
  · rw [if_pos hgt]
    refine ⟨?_, (key _ (by simp) (by simp) (by simp)).1,
      (key _ (by simp) (by simp) (by simp)).2⟩
    intro hle
    rw [look_at_pos, look_at_attack_radius] at hgt
    exact absurd hgt (not_lt.mpr hle)
  · rw [if_neg hgt]
    refine ⟨?_, (key _ (by simp) (by simp) (by simp)).1,
      (key _ (by simp) (by simp) (by simp)).2⟩
    intro _
    rw [attack_pos, look_at_pos]

/-- Witness for C7 (amended): the tick orients the enemy toward the
player at `(1000, 0)`; within range the position is unchanged (player at
the enemy's own position); with the counter at 9 of 10 a bullet is
spawned and the counter resets; with the counter at 0 of 10 no bullet is
spawned and the counter increments. -/
theorem chase_cadence_witness :
    (sampleEnemy.chase zeroExt (1000, 0) 1).angle =
      -(zeroExt.atan2d ((0 : ℚ) - sampleEnemy.pos.2)
        ((1000 : ℚ) - sampleEnemy.pos.1)) ∧
    (sampleEnemy.chase zeroExt sampleEnemy.pos 1).pos = sampleEnemy.pos ∧
    ((({ sampleEnemy with current_attack := 9 } : Enemy).chase zeroExt
        (1000, 0) 1).bullets.length =
      ({ sampleEnemy with current_attack := 9 } : Enemy).bullets.length + 1 ∧
     (({ sampleEnemy with current_attack := 9 } : Enemy).chase zeroExt
        (1000, 0) 1).current_attack = 0) ∧
    ((sampleEnemy.chase zeroExt (1000, 0) 1).bullets = sampleEnemy.bullets ∧
     (sampleEnemy.chase zeroExt (1000, 0) 1).current_attack =
       sampleEnemy.current_attack + 1) :=
  ⟨(chase_cadence zeroExt (1000, 0) 1 sampleEnemy).1,
   (chase_cadence zeroExt sampleEnemy.pos 1 sampleEnemy).2.1
      (by norm_num [sampleEnemy, mkEnemy, distance_sqr]),
   (chase_cadence zeroExt (1000, 0) 1
      { sampleEnemy with current_attack := 9 }).2.2.1 (by decide),
   (chase_cadence zeroExt (1000, 0) 1 sampleEnemy).2.2.2 (by decide)⟩

/-- Counterexample to C8 as stated.  `patrolEnemy` sits at Euclidean
distance 5 from its patrol target `(5, 0)` with epsilon 10, so by the
claim ("advance exactly when Euclidean distance < epsilon") it should
advance to the next waypoint `(99, 0)`; the code compares the *squared*
distance 25 against epsilon itself (`distance_sqr < self.epsilon`), so
25 < 10 fails and the target does not advance. -/
theorem patrol_epsilon_cex :
    distance_sqr patrolEnemy.pos patrolEnemy.patrol_target <
      patrolEnemy.epsilon ^ 2 ∧
    (patrolEnemy.patrol zeroExt 1).patrol_target = patrolEnemy.patrol_target ∧
    patrolEnemy.nextWaypoint ≠ patrolEnemy.patrol_target := by
  refine ⟨?_, ?_, ?_⟩
  · norm_num [patrolEnemy, sampleEnemy, mkEnemy, distance_sqr]
  · have hno : ¬ distance_sqr patrolEnemy.pos patrolEnemy.patrol_target <
        patrolEnemy.epsilon := by
      norm_num [patrolEnemy, sampleEnemy, mkEnemy, distance_sqr]
    unfold Enemy.patrol
    dsimp only
    rw [if_neg hno]
    simp
  · simp only [Enemy.nextWaypoint, patrolEnemy, sampleEnemy, mkEnemy]
    norm_num [Prod.ext_iff]

/-- C8 (amended).  The sub-target advance happens exactly when the
*squared* distance to the current target is below epsilon (i.e. the
Euclidean distance is below √epsilon, not epsilon): in `patrol` the
cyclic waypoint target is replaced by the next waypoint exactly under
that test; in `return_to_patrol` the same test pops the next path point
into `return_target`, an exhausted path drops the return path
(`return_path` becomes `None`), and when the test fails both the target
and the remaining path are kept. -/
theorem patrol_advance_iff (ext : Ext) (dt : ℚ) (e : Enemy) (rt : Point)
    (path : List Point) :
    (distance_sqr e.pos e.patrol_target < e.epsilon →
      (e.patrol ext dt).patrol_target = e.nextWaypoint) ∧
    (¬ distance_sqr e.pos e.patrol_target < e.epsilon →
      (e.patrol ext dt).patrol_target = e.patrol_target) ∧
    (e.return_target = some rt → distance_sqr e.pos rt < e.epsilon →
      path = [] →
      e.return_to_patrol ext dt path = some { e with return_path := none }) ∧
    (∀ t rest, e.return_target = some rt →
      distance_sqr e.pos rt < e.epsilon → path = t :: rest →
      ∃ e2, e.return_to_patrol ext dt path = some e2 ∧
        e2.return_target = some t ∧ e2.return_path = some rest) ∧
    (e.return_target = some rt → ¬ distance_sqr e.pos rt < e.epsilon →
      ∃ e2, e.return_to_patrol ext dt path = some e2 ∧
        e2.return_target = some rt ∧ e2.return_path = some path) := by
  refine ⟨?_, ?_, ?_, ?_, ?_⟩
  · intro h
    unfold Enemy.patrol
    dsimp only
    rw [if_pos h]
    simp
  · intro h
    unfold Enemy.patrol
    dsimp only
    rw [if_neg h]
    simp
  · intro hrt hd hpath
    subst hpath
    unfold Enemy.return_to_patrol
    rw [hrt]
    dsimp only
    rw [if_pos hd]
  · intro t rest hrt hd hpath
    subst hpath
    unfold Enemy.return_to_patrol
    rw [hrt]
    dsimp only
    rw [if_pos hd]
    exact ⟨_, rfl, by simp, by simp⟩
  · intro hrt hd
    unfold Enemy.return_to_patrol
    rw [hrt]
    dsimp only
    rw [if_neg hd]
    refine ⟨_, rfl, ?_, ?_⟩
    · simp [hrt]
    · simp

/-- Witness for C8 (amended): a target at squared distance 9 (< 10)
advances the waypoint cycle; `patrolEnemy` (squared distance 25) does
not; on the return path, squared distance 0 with an exhausted iterator
drops the return path, with a remaining point it pops it, and a far
return target (squared distance 640000) keeps target and path. -/
theorem patrol_advance_iff_witness :
    (({ patrolEnemy with patrol_target := (3, 0) } : Enemy).patrol zeroExt
        1).patrol_target =
      ({ patrolEnemy with patrol_target := (3, 0) } : Enemy).nextWaypoint ∧
    (patrolEnemy.patrol zeroExt 1).patrol_target = patrolEnemy.patrol_target ∧
    ({ sampleEnemy with return_target := some (0, 0) } : Enemy).return_to_patrol
        zeroExt 1 [] =
      some { ({ sampleEnemy with return_target := some (0, 0) } : Enemy) with
             return_path := none } ∧
    (∃ e2, ({ sampleEnemy with return_target := some (0, 0) } : Enemy).return_to_patrol
        zeroExt 1 [(7, 7)] = some e2 ∧
      e2.return_target = some (7, 7) ∧ e2.return_path = some []) ∧
    (∃ e2, ({ sampleEnemy with return_target := some (800, 0) } : Enemy).return_to_patrol
        zeroExt 1 [(7, 7)] = some e2 ∧
      e2.return_target = some (800, 0) ∧ e2.return_path = some [(7, 7)]) :=
  ⟨(patrol_advance_iff zeroExt 1 { patrolEnemy with patrol_target := (3, 0) }
      (0, 0) []).1 (by norm_num [patrolEnemy, sampleEnemy, mkEnemy, distance_sqr]),
   (patrol_advance_iff zeroExt 1 patrolEnemy (0, 0) []).2.1
      (by norm_num [patrolEnemy, sampleEnemy, mkEnemy, distance_sqr]),
   (patrol_advance_iff zeroExt 1 { sampleEnemy with return_target := some (0, 0) }
      (0, 0) []).2.2.1 rfl
      (by norm_num [sampleEnemy, mkEnemy, distance_sqr]) rfl,
   (patrol_advance_iff zeroExt 1 { sampleEnemy with return_target := some (0, 0) }
      (0, 0) [(7, 7)]).2.2.2.1 (7, 7) [] rfl
      (by norm_num [sampleEnemy, mkEnemy, distance_sqr]) rfl,
   (patrol_advance_iff zeroExt 1 { sampleEnemy with return_target := some (800, 0) }
      (800, 0) [(7, 7)]).2.2.2.2 rfl
      (by norm_num [sampleEnemy, mkEnemy, distance_sqr])⟩

/-- C9.  `normalize` applied to the zero vector returns it unchanged
(`math.hypot(0, 0) = 0` is falsy, so the division branch is skipped — no
error is raised), and a movement step toward a target at zero distance is
a no-op: `move_to_target` with the enemy's own position as target leaves
the enemy, in particular its position, unchanged (the squared distance of
the zero difference vector is falsy). -/
theorem normalize_zero_and_move_noop (ext : Ext) (h : ext.hyp 0 0 = 0) :
    normalize ext (0, 0) = (0, 0) ∧
    ∀ (e : Enemy) (dt : ℚ), e.move_to_target ext e.pos dt = e := by
  constructor
  · unfold normalize
    dsimp only
    rw [h]
    simp
  · intro e dt
    unfold Enemy.move_to_target
    dsimp only
    rw [if_neg]
    simp [distance_sqr]

/-- Witness for C9: the concrete interpretation `zeroExt` satisfies
`hyp 0 0 = 0`, the zero vector normalizes to itself and the degenerate
movement step of `sampleEnemy` is a no-op. -/
theorem normalize_zero_and_move_noop_witness :
    normalize zeroExt (0, 0) = (0, 0) ∧
    sampleEnemy.move_to_target zeroExt sampleEnemy.pos 1 = sampleEnemy :=
  ⟨(normalize_zero_and_move_noop zeroExt rfl).1,
   (normalize_zero_and_move_noop zeroExt rfl).2 sampleEnemy 1⟩

/-- C10.  `Player.shoot` with ammo ≤ 0 returns the player state
unchanged (no bullet is created, ammo untouched); with positive ammo it
appends exactly one bullet and decrements the ammo by exactly one. -/
theorem shoot_ammo (ext : Ext) (dir : Point) (p : Player) :
    (p.ammo ≤ 0 → p.shoot ext dir = p) ∧
    (0 < p.ammo →
      (p.shoot ext dir).bullets.length = p.bullets.length + 1 ∧
      (p.shoot ext dir).ammo = p.ammo - 1) := by
  constructor
  · intro h
    unfold Player.shoot
    rw [if_pos h]
  · intro h
    unfold Player.shoot
    dsimp only
    rw [if_neg (not_le.mpr h)]
    simp

/-- Witness for C10: a player with zero ammo is unchanged by `shoot`; the
freshly-constructed player (ammo 350) gains one bullet and ends with
ammo 349. -/
theorem shoot_ammo_witness :
    ({ samplePlayer with ammo := 0 } : Player).shoot zeroExt (1, 0) =
      { samplePlayer with ammo := 0 } ∧
    ((samplePlayer.shoot zeroExt (1, 0)).bullets.length =
      samplePlayer.bullets.length + 1 ∧
     (samplePlayer.shoot zeroExt (1, 0)).ammo = samplePlayer.ammo - 1) :=
  ⟨(shoot_ammo zeroExt (1, 0) { samplePlayer with ammo := 0 }).1 (by decide),
   (shoot_ammo zeroExt (1, 0) samplePlayer).2 (by decide)⟩

end Triggered
